import Mathlib

/-!
Verification of the request-resolution and retry state machine of
`@superhero/http-request` (src/index.js, with the related variants kept in
src/unnamed/part_000).  The JavaScript code is shallowly embedded: JS objects
used as ordered string maps become association lists with JS assignment
semantics, JS numbers driving the retry budget become rationals, the external
JSON codec primitive becomes an explicit parse-function parameter, and the
event-driven single-attempt resolution becomes a pure function from the
observed response data to a success-or-classified-failure value.
-/

namespace HttpRequest

/-! ## Error values and error codes

A classified failure carries a stable machine-readable `code` and, for
status-driven failures, the status of the response snapshot that triggered it
(`error.response.status` in the source; `none` models an absent snapshot). -/

structure ErrV where
  code    : String
  rstatus : Option Nat := none
  deriving Repr, DecidableEq

def codeClientError : String := "E_HTTP_REQUEST_CLIENT_ERROR"

def codeClientTimeout : String := "E_HTTP_REQUEST_CLIENT_TIMEOUT"

def codeDownstreamError : String := "E_HTTP_REQUEST_DOWNSTREAM_ERROR"

def codeInvalidBodyFormat : String := "E_HTTP_REQUEST_INVALID_RESPONSE_BODY_FORMAT"

def codeInvalidStatus : String := "E_HTTP_REQUEST_INVALID_RESPONSE_STATUS"

def codeSessionDestroyed : String := "E_HTTP_REQUEST_HTTP2_SESSION_DESTROYED"

def codeSessionClosed : String := "E_HTTP_REQUEST_HTTP2_SESSION_CLOSED"

def codeRetryAggregate : String := "E_HTTP_REQUEST_RETRY_ERROR"

/-! ## Options

The option fields consumed by the retry engine and the response resolver
(src/index.js lines 255-264 supply the defaults; the remaining fields of
`RequestOptions` do not influence the verified logic). -/

structure Options where
  retryOnStatus                    : List Nat := []
  retryOnClientTimeout             : Bool := false
  retryOnDownstreamError           : Bool := false
  retryOnInvalidResponseBodyFormat : Bool := false
  retryOnErrorResponseStatus       : Bool := false
  doNotThrowOnErrorStatus          : Bool := false
  doNotThrowOnRedirectStatus       : Bool := false
  deriving Repr

/-! ## Throw-policy gate (src/index.js lines 388-389)

`(response.status >= 400 && false === !!options.doNotThrowOnErrorStatus) ||
 (response.status >= 300 && false === !!options.doNotThrowOnRedirectStatus
  && response.status < 400)` -/

def throwPolicyGateFails (o : Options) (status : Nat) : Bool :=
  (400 ≤ status && !o.doNotThrowOnErrorStatus) ||
  (300 ≤ status && !o.doNotThrowOnRedirectStatus && status < 400)

/-! ## JavaScript string primitives

JS strings are modelled as Lean strings over their character sequence
(`String.data`); `indexOf` and `slice` keep their JS semantics, in particular
`indexOf` returns `-1` when the needle is absent and `slice` interprets a
negative index as counting from the end of the string. -/

def jsIndexOfAux (c : Char) : List Char → Nat → Int
  | [],      _ => -1
  | d :: ds, i => if d = c then (i : Int) else jsIndexOfAux c ds (i + 1)

/-- `s.indexOf(c)`: position of the first occurrence of `c`, `-1` if absent. -/
def jsIndexOf (s : String) (c : Char) : Int :=
  jsIndexOfAux c s.data 0

/-- Clamp a JS slice index argument into `[0, len]`. -/
def jsSliceIndex (len : Nat) (i : Int) : Nat :=
  if i < 0 then ((len : Int) + i).toNat else min i.toNat len

/-- `s.slice(0, e)` for a possibly negative end index `e`. -/
def jsSliceZeroTo (s : String) (e : Int) : String :=
  String.mk (s.data.take (jsSliceIndex s.data.length e))

/-- `s.slice(b)` for a possibly negative begin index `b`. -/
def jsSliceFrom (s : String) (b : Int) : String :=
  String.mk (s.data.drop (jsSliceIndex s.data.length b))

/-- `s.startsWith(pre)`. -/
def jsStartsWith (s pre : String) : Bool :=
  pre.data.isPrefixOf s.data

/-- `s.trim()`: strip whitespace from both ends. -/
def jsTrim (s : String) : String :=
  String.mk (((s.data.dropWhile Char.isWhitespace).reverse.dropWhile
    Char.isWhitespace).reverse)

/-- Worker for `s.split(sep)`: scan the characters left to right, emit the
accumulated chunk at each non-overlapping occurrence of the separator.
`skip` counts separator characters still to be consumed. -/
def jsSplitAux (sep : List Char) : List Char → List Char → Nat → List (List Char)
  | [],     acc, _        => [acc.reverse]
  | _ :: l, acc, skip + 1 => jsSplitAux sep l acc skip
  | c :: l, acc, 0        =>
    if sep.isPrefixOf (c :: l) then
      acc.reverse :: jsSplitAux sep l [] (sep.length - 1)
    else
      jsSplitAux sep l (c :: acc) 0

/-- `s.split(sep)` for a non-empty string separator. -/
def jsSplit (s sep : String) : List String :=
  (jsSplitAux sep.data s.data [] 0).map String.mk

/-! ## JS object construction

A JS object used as a string map is embedded as an association list in
property insertion order.  `jsSet` is one property assignment `m[k] = v`:
an existing key keeps its position and gets the new value, a fresh key is
appended.  (JS additionally fronts integer-like property names; header
names and event-stream field names are not integer-like, so pure insertion
order is the faithful order for the modelled inputs.) -/

def jsSet {β : Type} : List (String × β) → String → β → List (String × β)
  | [],     k, v => [(k, v)]
  | p :: m, k, v => if p.1 = k then (k, v) :: m else p :: jsSet m k v

/-- `Object.fromEntries(entries)`: build a JS object from a list of
key/value pairs by successive property assignment. -/
def jsFromEntries {β : Type} (entries : List (String × β)) : List (String × β) :=
  entries.foldl (fun acc p => jsSet acc p.1 p.2) []

/-- Property read `m[k]` on a JS object: the keys of a JS object are
distinct, so first-match lookup is the lookup. -/
def jsGet {β : Type} : List (String × β) → String → Option β
  | [],     _ => none
  | p :: m, k => if p.1 = k then some p.2 else jsGet m k

/-! ## Body decoding by content type

The JSON codec is an external collaborator; a decode attempt is a parameter
`P : String → Option α` (`some` = `JSON.parse` succeeds with the parsed
value, `none` = it throws).  `α` is the type of parsed JSON values. -/

/-- `#contentTypeApplicationJson` (src/unnamed/part_000 lines 1996-2008, and
inline in src/index.js line 696): `JSON.parse(body || '\x7b\x7d')`, a parse
failure becoming an invalid-body-format condition. -/
def contentTypeApplicationJson {α : Type} (P : String → Option α)
    (body : String) : Option α :=
  P (if body = "" then "\x7b\x7d" else body)

/-- One decoded event-stream field value: a parsed JSON value, or the raw
trimmed text when the parse fails. -/
abbrev FieldValue (α : Type) := α ⊕ String

/-- The per-field body of `#contentTypeTextEventStream`: cut the field at
the first `':'` via `indexOf`/`slice`, trim the value, and opportunistically
JSON-parse it. -/
def decodeEventField {α : Type} (P : String → Option α) (field : String) :
    String × FieldValue α :=
  let separator := jsIndexOf field ':'
  let param     := jsSliceZeroTo field separator
  let value     := jsTrim (jsSliceFrom field (separator + 1))
  match P value with
  | some v => (param, Sum.inl v)
  | none   => (param, Sum.inr value)

/-- `#contentTypeTextEventStream` (src/unnamed/part_000 lines 2010-2031):
split the trimmed body on `"\n\n"`, split each event on `"\n"`, decode each
field and collect each event's fields with `Object.fromEntries`. -/
def contentTypeTextEventStream {α : Type} (P : String → Option α)
    (body : String) : List (List (String × FieldValue α)) :=
  (jsSplit (jsTrim body) "\n\n").map (fun fields =>
    jsFromEntries ((jsSplit fields "\n").map (decodeEventField P)))

/-- A decoded response body: parsed JSON, a decoded event sequence, or the
raw buffered text for any other media type. -/
inductive BodyV (α : Type) where
  | raw    (s : String)
  | json   (v : α)
  | events (evs : List (List (String × FieldValue α)))
  deriving Repr, DecidableEq

/-- The response data observed by one attempt once the headers and the
buffered body are in: status, declared content type (`none` models an absent
`content-type` header) and buffered body text. -/
structure RespIn where
  status      : Nat
  contentType : Option String := none
  bodyText    : String := ""
  deriving Repr, DecidableEq

/-- A settled response value: status plus decoded body (`none` when the body
was piped to a caller-supplied downstream sink). -/
structure RespOut (α : Type) where
  status : Nat
  body   : Option (BodyV α) := none
  deriving Repr, DecidableEq

/-- `#onStreamEnd` (src/unnamed/part_000 lines 1968-1994; src/index.js lines
690-710 is the same logic without the event-stream branch): decode the
buffered body by declared content type, a decode failure rejecting with
`E_HTTP_REQUEST_INVALID_RESPONSE_BODY_FORMAT`. -/
def onStreamEnd {α : Type} (P : String → Option α) (rin : RespIn) :
    Except ErrV (RespOut α) :=
  if (rin.contentType.map (fun s => jsStartsWith s "application/json")).getD false then
    match contentTypeApplicationJson P rin.bodyText with
    | some v => .ok { status := rin.status, body := some (.json v) }
    | none   => .error { code := codeInvalidBodyFormat, rstatus := some rin.status }
  else if (rin.contentType.map (fun s => jsStartsWith s "text/event-stream")).getD false then
    .ok { status := rin.status, body := some (.events (contentTypeTextEventStream P rin.bodyText)) }
  else
    .ok { status := rin.status, body := some (.raw rin.bodyText) }

/-- `#resolveOnResponse` (src/index.js lines 380-409): apply the throw-policy
gate; on a gated status reject with
`E_HTTP_REQUEST_INVALID_RESPONSE_STATUS` carrying the response snapshot
(the best-effort diagnostic body drain only decorates `error.cause` and is
not modelled); otherwise either resolve immediately without a body when a
downstream sink is configured, or buffer and decode the body. -/
def resolveOnResponse {α : Type} (P : String → Option α) (o : Options)
    (downstream : Bool) (rin : RespIn) : Except ErrV (RespOut α) :=
  if throwPolicyGateFails o rin.status then
    .error { code := codeInvalidStatus, rstatus := some rin.status }
  else if downstream then
    .ok { status := rin.status, body := none }
  else
    onStreamEnd P rin

/-! ## Header normalization (src/index.js lines 549-558) -/

/-- `key.toLowerCase()` on one character, restricted to the basic latin
range actually exercised by header names. -/
def lowerChar (c : Char) : Char :=
  if 65 ≤ c.toNat ∧ c.toNat ≤ 90 then Char.ofNat (c.toNat + 32) else c

/-- `key.toLowerCase()` on the character sequence of a key. -/
def lowerStr (s : String) : String :=
  String.mk (s.data.map lowerChar)

/-- `#normalizeHeaders`: iterate the keys of the header object in order and
assign `normalized[key.toLowerCase()] = headers[key]`. -/
def normalizeHeaders (h : List (String × String)) : List (String × String) :=
  h.foldl (fun acc p => jsSet acc (lowerStr p.1) p.2) []

/-! ## Body normalization and the framing delimiter -/

/-- `#normalizeBody` (src/index.js lines 568-582).  The JSON and
form-url-encode primitives are external collaborators, passed as the
stringifier parameters; a body value is either already textual (`Sum.inl`)
or structured data (`Sum.inr`). -/
def normalizeBody {β : Type} (jsonStringify formStringify : β → String)
    (body : String ⊕ β) (contentType : Option String) : String :=
  match body with
  | .inl s => s
  | .inr v =>
    if (contentType.map (fun s => jsStartsWith s "application/json")).getD false
    then jsonStringify v
    else formStringify v

/-- The transfer-framing header produced by `#createBodyHeaderDelimiter`. -/
inductive Framing where
  | chunked
  | contentLength (n : Nat)
  deriving Repr, DecidableEq

/-- `#createBodyHeaderDelimiter` (src/index.js lines 537-542): chunked
framing when streamed, else a content-length equal to the length of the
normalized body string. -/
def createBodyHeaderDelimiter (body : String) (isStreamed : Bool) : Framing :=
  if isStreamed then .chunked else .contentLength body.length

/-- The delimiter wiring of `#resolve` (src/index.js line 292): the request
is streamed exactly when an upstream stream is supplied or a persistent
HTTP/2 session is active. -/
def resolveFraming {β : Type} (jsonStringify formStringify : β → String)
    (body : String ⊕ β) (contentType : Option String)
    (upstream http2Session : Bool) : Framing :=
  createBodyHeaderDelimiter
    (normalizeBody jsonStringify formStringify body contentType)
    (upstream || http2Session)

/-! ## HTTP/2 session gate (src/unnamed/part_000 lines 690-706) -/

/-- The observable lifecycle state of the persistent HTTP/2 session. -/
structure SessionState where
  destroyed : Bool
  closed    : Bool
  deriving Repr, DecidableEq

/-- Outcome of starting an exchange on `#resolveHttp2Client`: either an
immediate rejection before anything touches the network, or a multiplexed
stream request is opened. -/
inductive H2Start where
  | rejected (e : ErrV)
  | requested
  deriving Repr, DecidableEq

/-- The dead-session precheck of `#resolveHttp2Client`: a destroyed session
rejects with `E_HTTP_REQUEST_HTTP2_SESSION_DESTROYED`, a closed one with
`E_HTTP_REQUEST_HTTP2_SESSION_CLOSED`, and only a live session reaches
`http2Session.request`. -/
def resolveHttp2Client (s : SessionState) : H2Start :=
  if s.destroyed then .rejected { code := codeSessionDestroyed }
  else if s.closed then .rejected { code := codeSessionClosed }
  else .requested

/-! ## The retry engine

One resolution attempt either succeeds with a response or fails with a
classified error; the environment is a function from the attempt index to
its outcome.  A response is identified by its status plus an opaque tag so
that "returns that response unchanged" is expressible.  For the session
failure kinds the variant in src/unnamed/part_000 attempts a reconnect,
whose outcome (`none` = reconnect succeeded, `some e` = it failed with `e`)
is part of the attempt outcome. -/

structure Resp where
  status : Nat
  tag    : Nat := 0
  deriving Repr, DecidableEq

inductive Attempt where
  | success (r : Resp)
  | failure (e : ErrV) (reconnect : Option ErrV := none)
  deriving Repr, DecidableEq

/-- What the per-failure classifier decides: record the failure and keep
looping, or rethrow a value immediately. -/
inductive Classified where
  | record
  | rethrow (e : ErrV)
  deriving Repr, DecidableEq

/-- Membership test `options.retryOnStatus.includes(error.response.status)`:
an absent snapshot status (`undefined`) is never an element of a list of
numbers. -/
def retryOnStatusHit (o : Options) (e : ErrV) : Bool :=
  match e.rstatus with
  | some s => o.retryOnStatus.contains s
  | none   => false

/-- `#resolveRetryLoopError` (src/index.js lines 474-535): the per-kind
retry-eligibility switch.  The session failure codes are not cases of this
variant and fall to the default rethrow. -/
def resolveRetryLoopError (o : Options) (e : ErrV) : Classified :=
  if e.code = codeClientError then .record
  else if e.code = codeClientTimeout then
    (if o.retryOnClientTimeout then .record else .rethrow e)
  else if e.code = codeDownstreamError then
    (if o.retryOnDownstreamError then .record else .rethrow e)
  else if e.code = codeInvalidBodyFormat then
    (if o.retryOnInvalidResponseBodyFormat then .record else .rethrow e)
  else if e.code = codeInvalidStatus then
    (if o.retryOnErrorResponseStatus then .record
     else if retryOnStatusHit o e then .record
     else .rethrow e)
  else .rethrow e

/-- `#resolveRetryLoopError` of src/unnamed/part_000 (lines 875-952): same
switch plus the session cases, which reconnect and record on success and
rethrow the raw reconnect failure (`throw reason`, line 895) otherwise. -/
def resolveRetryLoopErrorS2 (o : Options) (e : ErrV) (reconnect : Option ErrV) :
    Classified :=
  if e.code = codeSessionDestroyed ∨ e.code = codeSessionClosed then
    (match reconnect with
     | none        => .record
     | some reason => .rethrow reason)
  else resolveRetryLoopError o e

/-- The settled outcome of a whole retry loop run.  `nothingR` models the
loop falling through with no iteration left and the enclosing async function
resolving `undefined`. -/
inductive RunResult where
  | response  (r : Resp)
  | thrown    (e : ErrV)
  | aggregate (trace : List ErrV)
  | nothingR
  deriving Repr, DecidableEq

/-- The loop body of `#resolveRetryLoop` (src/index.js lines 420-457),
structured on the fuel left before the `while(retry--)` check: at fuel
`r + 1` the body runs with post-decrement counter `r`, at fuel `0` the loop
exits and the function returns `undefined`.  The run carries the attempt
index and the recorded `errorTrace`; the result is the settled value, the
number of resolution attempts performed, and the final trace. -/
def retryAux (o : Options) (att : Nat → Attempt) :
    Nat → Nat → List ErrV → RunResult × Nat × List ErrV
  | 0, i, tr => (.nothingR, i, tr)
  | r + 1, i, tr =>
    match att i with
    | .success resp =>
      if 400 ≤ resp.status ∧ 0 < r ∧
         (resp.status ∈ o.retryOnStatus ∨ o.retryOnErrorResponseStatus = true)
      then retryAux o att r (i + 1) tr
      else (.response resp, i + 1, tr)
    | .failure e _ =>
      if r = 0 then (.thrown e, i + 1, tr)
      else
        match resolveRetryLoopError o e with
        | .record     => retryAux o att r (i + 1) (tr ++ [e])
        | .rethrow e2 => (.thrown e2, i + 1, tr)

/-- `let retry = Math.abs(Math.floor(options.retry))` (src/index.js line
424), on the JS number `options.retry` modelled as a rational. -/
def retryBudget (retry : ℚ) : Nat :=
  (Int.floor retry).natAbs

/-- `#resolveRetryLoop` (src/index.js lines 420-457). -/
def resolveRetryLoop (o : Options) (retry : ℚ) (att : Nat → Attempt) :
    RunResult × Nat × List ErrV :=
  retryAux o att (retryBudget retry) 0 []

/-- The exhaustion epilogue of the src/unnamed/part_000 variant (lines
853-863): if every recorded failure shares the first one's code, throw the
most recent recorded one (`errorTrace.pop()`, `undefined` on an empty
trace), else throw `E_HTTP_REQUEST_RETRY_ERROR` carrying the whole trace. -/
def retryExhaustS2 (tr : List ErrV) : RunResult :=
  if tr.all (fun e => some e.code = (tr.head?.map ErrV.code)) then
    match tr.getLast? with
    | some e => .thrown e
    | none   => .nothingR
  else .aggregate tr

/-- The loop of `#resolveRetryLoop` in src/unnamed/part_000 (lines 815-864):
same body as the src/index.js loop but with the session-aware classifier
and the exhaustion epilogue after the loop. -/
def retryAuxS2 (o : Options) (att : Nat → Attempt) :
    Nat → Nat → List ErrV → RunResult × Nat × List ErrV
  | 0, i, tr => (retryExhaustS2 tr, i, tr)
  | r + 1, i, tr =>
    match att i with
    | .success resp =>
      if 400 ≤ resp.status ∧ 0 < r ∧
         (resp.status ∈ o.retryOnStatus ∨ o.retryOnErrorResponseStatus = true)
      then retryAuxS2 o att r (i + 1) tr
      else (.response resp, i + 1, tr)
    | .failure e rc =>
      if r = 0 then (.thrown e, i + 1, tr)
      else
        match resolveRetryLoopErrorS2 o e rc with
        | .record     => retryAuxS2 o att r (i + 1) (tr ++ [e])
        | .rethrow e2 => (.thrown e2, i + 1, tr)

/-- `let retry = Math.abs(Math.floor(options.retry)) + 1` (src/unnamed/
part_000 line 819). -/
def retryBudgetS2 (retry : ℚ) : Nat :=
  (Int.floor retry).natAbs + 1

/-- `#resolveRetryLoop` of src/unnamed/part_000 (lines 815-864). -/
def resolveRetryLoopS2 (o : Options) (retry : ℚ) (att : Nat → Attempt) :
    RunResult × Nat × List ErrV :=
  retryAuxS2 o att (retryBudgetS2 retry) 0 []

/-- The claim-side attempt-budget formula `max(1, floor(abs(retry)))`,
stated for comparison with `retryBudget`. -/
def claimedBudget (retry : ℚ) : Nat :=
  max 1 (Int.floor |retry|).toNat

/-! ## Claim-side event-stream decoding

A second decoder written from the specification's words — "each event split
on newline boundaries into field:value entries, each value opportunistically
JSON-parsed and falling back to the raw trimmed text" — to be compared with
the decoder embedded from the source. -/

/-- Claim-side field decoding: the name is everything before the first
colon, the value is everything after it, trimmed, JSON-parsed when
possible. -/
def specDecodeField {α : Type} (P : String → Option α) (field : String) :
    String × FieldValue α :=
  let param := String.mk (field.data.takeWhile (fun d => d != ':'))
  let value := jsTrim (String.mk ((field.data.dropWhile (fun d => d != ':')).drop 1))
  match P value with
  | some v => (param, Sum.inl v)
  | none   => (param, Sum.inr value)

/-- Claim-side event-stream decoding: split on blank-line boundaries into
events, each event on newline boundaries into field:value entries. -/
def specEventStreamDecode {α : Type} (P : String → Option α) (body : String) :
    List (List (String × FieldValue α)) :=
  (jsSplit (jsTrim body) "\n\n").map (fun ev =>
    jsFromEntries ((jsSplit ev "\n").map (specDecodeField P)))

/-- Every field of every event of the body carries a colon (the shape the
specification's "field:value entries" describes). -/
def fieldsHaveColon (body : String) : Prop :=
  ∀ ev ∈ jsSplit (jsTrim body) "\n\n", ∀ f ∈ jsSplit ev "\n", ':' ∈ f.data

instance (body : String) : Decidable (fieldsHaveColon body) := by
  unfold fieldsHaveColon; infer_instance

/-! ## Helper lemmas -/

theorem throwPolicyGateFails_iff (o : Options) (s : Nat) :
    throwPolicyGateFails o s = true ↔
      ((400 ≤ s ∧ o.doNotThrowOnErrorStatus = false) ∨
       (300 ≤ s ∧ s < 400 ∧ o.doNotThrowOnRedirectStatus = false)) := by
  simp only [throwPolicyGateFails, Bool.or_eq_true, Bool.and_eq_true,
    decide_eq_true_eq, Bool.not_eq_true']
  tauto

theorem onStreamEnd_error_code {α : Type} (P : String → Option α)
    (rin : RespIn) (e : ErrV) (h : onStreamEnd P rin = .error e) :
    e.code = codeInvalidBodyFormat := by
  unfold onStreamEnd at h
  split at h
  · split at h
    · exact absurd h (by simp)
    · exact (Except.error.injEq _ _).mp h ▸ rfl
  · split at h
    · exact absurd h (by simp)
    · exact absurd h (by simp)

/-! ## Claim C3 -/

/-- C3: a received response fails single-attempt resolution with an
`InvalidResponseStatus` failure exactly when (status ≥ 400 and
`doNotThrowOnErrorStatus` is not set) or (300 ≤ status < 400 and
`doNotThrowOnRedirectStatus` is not set); a status below 300 passes the
gate regardless of either flag and proceeds to the normal success path. -/
theorem invalid_status_gate {α : Type} (P : String → Option α) (o : Options)
    (downstream : Bool) (rin : RespIn) :
    ((∃ e, resolveOnResponse P o downstream rin = .error e ∧
           e.code = codeInvalidStatus) ↔
       ((400 ≤ rin.status ∧ o.doNotThrowOnErrorStatus = false) ∨
        (300 ≤ rin.status ∧ rin.status < 400 ∧
         o.doNotThrowOnRedirectStatus = false)))
    ∧ (rin.status < 300 →
         throwPolicyGateFails o rin.status = false ∧
         resolveOnResponse P o downstream rin =
           (if downstream then .ok { status := rin.status, body := none }
            else onStreamEnd P rin)) := by
  constructor
  · constructor
    · rintro ⟨e, he, hcode⟩
      rw [← throwPolicyGateFails_iff]
      by_contra hgate
      have hg : throwPolicyGateFails o rin.status = false :=
        Bool.not_eq_true _ ▸ hgate
      simp only [resolveOnResponse, hg, Bool.false_eq_true, if_false] at he
      split at he
      · exact absurd he (by simp)
      · have := onStreamEnd_error_code P rin e he
        rw [this] at hcode
        exact absurd hcode (by decide)
    · intro hcond
      have hg : throwPolicyGateFails o rin.status = true :=
        (throwPolicyGateFails_iff o rin.status).mpr hcond
      exact ⟨{ code := codeInvalidStatus, rstatus := some rin.status },
        by simp [resolveOnResponse, hg], rfl⟩
  · intro hlt
    have hg : throwPolicyGateFails o rin.status = false := by
      by_contra hgate
      have := (throwPolicyGateFails_iff o rin.status).mp
        (eq_true_of_ne_false (fun hf => hgate hf))
      omega
    exact ⟨hg, by simp [resolveOnResponse, hg]⟩

/-- Witness for C3 at a 503 response with no flags set and a 200 response. -/
theorem invalid_status_gate_witness :
    (∃ e, resolveOnResponse (fun s => some s) {} false
            { status := 503, contentType := none, bodyText := "x" } = .error e ∧
          e.code = codeInvalidStatus)
    ∧ throwPolicyGateFails {} 200 = false :=
  ⟨(invalid_status_gate (fun s => some s) {} false
      { status := 503, contentType := none, bodyText := "x" }).1.mpr
      (Or.inl ⟨by decide, rfl⟩),
   ((invalid_status_gate (fun s => some s) {} false
      { status := 200, contentType := none, bodyText := "x" }).2 (by decide)).1⟩

/-! ## Claim C5 -/

/-- C5: when the persistent HTTP/2 session is destroyed or closed, starting
an exchange on it rejects immediately with a session-state failure
(`SessionDestroyed` or `SessionClosed`) — `.rejected` is produced by the
precheck before `http2Session.request` opens a stream, so nothing is
written to the network. -/
theorem dead_session_rejected (s : SessionState)
    (h : s.destroyed = true ∨ s.closed = true) :
    ∃ e, resolveHttp2Client s = .rejected e ∧
      (e.code = codeSessionDestroyed ∨ e.code = codeSessionClosed) := by
  unfold resolveHttp2Client
  rcases h with hd | hc
  · exact ⟨{ code := codeSessionDestroyed }, by simp [hd], Or.inl rfl⟩
  · by_cases hd : s.destroyed = true
    · exact ⟨{ code := codeSessionDestroyed }, by simp [hd], Or.inl rfl⟩
    · have hd' : s.destroyed = false := by
        revert hd; cases s.destroyed <;> simp
      exact ⟨{ code := codeSessionClosed }, by simp [hd', hc], Or.inr rfl⟩

/-- Witness for C5: a destroyed session and a closed session. -/
theorem dead_session_rejected_witness :
    (∃ e, resolveHttp2Client { destroyed := true, closed := false } = .rejected e ∧
      (e.code = codeSessionDestroyed ∨ e.code = codeSessionClosed))
    ∧ (∃ e, resolveHttp2Client { destroyed := false, closed := true } = .rejected e ∧
      (e.code = codeSessionDestroyed ∨ e.code = codeSessionClosed)) :=
  ⟨dead_session_rejected _ (Or.inl rfl), dead_session_rejected _ (Or.inr rfl)⟩

/-! ## Claim C6 -/

/-- C6: the framing delimiter of a resolved request is
`transfer-encoding: chunked` exactly when an upstream stream is supplied or
a persistent session is active, and otherwise a `content-length` equal to
the length of the normalized body string, zero when the normalized body is
empty.  (Body strings are modelled over their character sequence, so
`body.length` is the JS string length the source writes into the header.) -/
theorem framing_delimiter {β : Type} (J F : β → String) (body : String ⊕ β)
    (ct : Option String) (upstream session : Bool) :
    (resolveFraming J F body ct upstream session = .chunked ↔
       (upstream = true ∨ session = true))
    ∧ (upstream = false → session = false →
        resolveFraming J F body ct upstream session =
          .contentLength (normalizeBody J F body ct).length)
    ∧ (upstream = false → session = false → normalizeBody J F body ct = "" →
        resolveFraming J F body ct upstream session = .contentLength 0) := by
  refine ⟨?_, ?_, ?_⟩
  · cases upstream <;> cases session <;>
      simp [resolveFraming, createBodyHeaderDelimiter]
  · intro hu hs
    simp [resolveFraming, createBodyHeaderDelimiter, hu, hs]
  · intro hu hs hb
    simp [resolveFraming, createBodyHeaderDelimiter, hu, hs, hb]

/-- Witness for C6: a textual body with no upstream and no session, and the
empty body. -/
theorem framing_delimiter_witness :
    resolveFraming (fun _ : Unit => "") (fun _ => "") (Sum.inl "hello") none
      false false = .contentLength 5
    ∧ resolveFraming (fun _ : Unit => "") (fun _ => "") (Sum.inl "") none
      false false = .contentLength 0
    ∧ resolveFraming (fun _ : Unit => "") (fun _ => "") (Sum.inl "hello") none
      true false = .chunked := by
  refine ⟨?_, ?_, ?_⟩
  · exact (framing_delimiter _ _ _ _ _ _).2.1 rfl rfl
  · exact (framing_delimiter _ _ _ _ _ _).2.2 rfl rfl rfl
  · exact (framing_delimiter (fun _ : Unit => "") (fun _ => "") (Sum.inl "hello")
      none true false).1.mpr (Or.inl rfl)

/-! ## Claim C10 -/

/-- C10: a gated-success response declaring a JSON content type with an
empty buffered body decodes to the empty JSON object — the body is
substituted with the two-character object literal before parsing — instead
of failing with `InvalidResponseBodyFormat`. -/
theorem empty_json_body_empty_object {α : Type} (P : String → Option α)
    (emptyObj : α) (o : Options) (rin : RespIn) (ct : String)
    (hP : P "\x7b\x7d" = some emptyObj)
    (hct : rin.contentType = some ct)
    (hjson : jsStartsWith ct "application/json" = true)
    (hempty : rin.bodyText = "")
    (hgate : throwPolicyGateFails o rin.status = false) :
    resolveOnResponse P o false rin =
      .ok { status := rin.status, body := some (.json emptyObj) } := by
  simp [resolveOnResponse, hgate, onStreamEnd, hct, hjson,
    contentTypeApplicationJson, hempty, hP]

/-- Witness for C10: a 200 response, content type `application/json`, empty
body, with a parse primitive sending the object literal to a value. -/
theorem empty_json_body_empty_object_witness :
    resolveOnResponse (fun s => if s = "\x7b\x7d" then some 0 else none) {} false
      { status := 200, contentType := some "application/json", bodyText := "" } =
      .ok { status := 200, body := some (.json 0) } :=
  empty_json_body_empty_object _ 0 {} _ "application/json"
    (by decide) rfl (by decide) rfl (by decide)

/-! ## Retry-loop helper lemmas -/

/-- An environment in which every attempt fails with a `ClientError` (the
always-retryable kind) drives the loop through its whole budget. -/
theorem retryAux_clientError_count (o : Options) :
    ∀ (b i : Nat) (tr : List ErrV),
      (retryAux o (fun _ => .failure { code := codeClientError } none) b i tr).2.1
        = i + b := by
  intro b
  induction b with
  | zero => intro i tr; simp [retryAux]
  | succ n ih =>
    intro i tr
    by_cases hn : n = 0
    · subst hn
      simp [retryAux, resolveRetryLoopError, codeClientError]
    · have hrec : resolveRetryLoopError o { code := codeClientError } = .record := by
        simp [resolveRetryLoopError]
      simp only [retryAux, hrec, hn, if_false]
      rw [ih]
      omega

/-- The loop never performs more attempts than its budget. -/
theorem retryAux_count_le (o : Options) (att : Nat → Attempt) :
    ∀ (b i : Nat) (tr : List ErrV),
      (retryAux o att b i tr).2.1 ≤ i + b := by
  intro b
  induction b with
  | zero => intro i tr; simp [retryAux]
  | succ n ih =>
    intro i tr
    simp only [retryAux]
    cases att i with
    | success resp =>
      dsimp only
      split
      · have h2 : (i + 1) + n ≤ i + (n + 1) := by omega
        exact (ih (i + 1) tr).trans h2
      · dsimp only; omega
    | failure e rc =>
      dsimp only
      by_cases hn : n = 0
      · rw [if_pos hn]; dsimp only; omega
      · rw [if_neg hn]
        cases hcl : resolveRetryLoopError o e with
        | record =>
          dsimp only
          have h2 : (i + 1) + n ≤ i + (n + 1) := by omega
          exact (ih (i + 1) (tr ++ [e])).trans h2
        | rethrow e2 => dsimp only; omega

/-! ## Claim C1 -/

/-- C1 counterexample: `options.retry = 1/2` is truthy, yet the loop
performs zero resolution attempts — `Math.abs(Math.floor(0.5)) = 0` makes
`while(retry--)` exit at once and the call resolves `undefined` — while the
claimed budget `max(1, floor(abs(0.5)))` is 1, so no attempt at all is
performed for a fractional retry value strictly between 0 and 1. -/
theorem retry_budget_claim_counterexample :
    (resolveRetryLoop {} (1/2)
        (fun _ => .failure { code := codeClientError } none)).2.1 = 0
    ∧ claimedBudget (1/2) = 1
    ∧ (resolveRetryLoop {} (1/2)
        (fun _ => .failure { code := codeClientError } none)).2.1
      ≠ claimedBudget (1/2)
    ∧ (resolveRetryLoop {} (1/2)
        (fun _ => .failure { code := codeClientError } none)).1 = .nothingR := by
  have h01 : (0 : ℚ) ≤ 1/2 := by positivity
  have h11 : (1 : ℚ)/2 < 1 := by linarith
  have hfloor : Int.floor ((1 : ℚ)/2) = 0 :=
    Int.floor_eq_zero_iff.mpr (Set.mem_Ico.mpr ⟨h01, h11⟩)
  have hb : retryBudget (1/2) = 0 := by
    unfold retryBudget; rw [hfloor]; rfl
  have habs : |(1 : ℚ)/2| = 1/2 := abs_of_pos (by positivity)
  refine ⟨?_, ?_, ?_, ?_⟩
  · unfold resolveRetryLoop; rw [hb]; rfl
  · unfold claimedBudget; rw [habs, hfloor]; rfl
  · unfold resolveRetryLoop claimedBudget; rw [hb, habs, hfloor]; decide
  · unfold resolveRetryLoop; rw [hb]; rfl

/-- C1 amended: with a truthy retry value `r`, the loop's attempt budget is
`Math.abs(Math.floor(r))` — when every attempt fails with an
always-retryable `ClientError` the loop performs exactly that many attempts
before throwing, and no run ever performs more; in particular for every
fractional retry value strictly between 0 and 1 the budget is zero, no
attempt is performed, and the call settles with no response at all. -/
theorem retry_budget_amended (o : Options) (r : ℚ) (_truthy : r ≠ 0) :
    ((resolveRetryLoop o r
        (fun _ => .failure { code := codeClientError } none)).2.1 = retryBudget r)
    ∧ (∀ att, (resolveRetryLoop o r att).2.1 ≤ retryBudget r)
    ∧ (0 < r → r < 1 →
        retryBudget r = 0 ∧
        ∀ att, resolveRetryLoop o r att = (.nothingR, 0, [])) := by
  refine ⟨?_, ?_, ?_⟩
  · have := retryAux_clientError_count o (retryBudget r) 0 []
    simpa [resolveRetryLoop] using this
  · intro att
    have := retryAux_count_le o att (retryBudget r) 0 []
    simpa [resolveRetryLoop] using this
  · intro h0 h1
    have hfloor : Int.floor r = 0 := by
      rw [Int.floor_eq_zero_iff, Set.mem_Ico]
      exact ⟨le_of_lt h0, by simpa using h1⟩
    have hb : retryBudget r = 0 := by
      simp [retryBudget, hfloor]
    exact ⟨hb, fun att => by simp [resolveRetryLoop, hb, retryAux]⟩

/-- Witness for C1's amended statement at `retry = 3` and `retry = 1/2`. -/
theorem retry_budget_amended_witness :
    (resolveRetryLoop {} 3
        (fun _ => .failure { code := codeClientError } none)).2.1 = retryBudget 3
    ∧ resolveRetryLoop {} (1/2) (fun _ => .success { status := 200 })
        = (.nothingR, 0, []) :=
  ⟨(retry_budget_amended {} 3 (by norm_num)).1,
   ((retry_budget_amended {} (1/2) (by norm_num)).2.2 (by norm_num) (by norm_num)).2 _⟩

/-! ## Claim C7 -/

/-- Helper for C7: a status-retryable ≥ 400 success drives the loop through
its whole budget — every iteration with attempts remaining takes the
`continue` branch without touching the trace — and the last iteration
returns the response as-is. -/
theorem retryAux_status_retryable (o : Options) (resp : Resp)
    (h400 : 400 ≤ resp.status)
    (hretry : resp.status ∈ o.retryOnStatus ∨ o.retryOnErrorResponseStatus = true) :
    ∀ (b i : Nat) (tr : List ErrV), 1 ≤ b →
      retryAux o (fun _ => .success resp) b i tr = (.response resp, i + b, tr) := by
  intro b
  induction b with
  | zero => intro i tr hb; omega
  | succ n ih =>
    intro i tr _
    by_cases hn : n = 0
    · subst hn
      simp [retryAux]
    · have hcond : 400 ≤ resp.status ∧ 0 < n ∧
          (resp.status ∈ o.retryOnStatus ∨ o.retryOnErrorResponseStatus = true) :=
        ⟨h400, Nat.pos_of_ne_zero hn, hretry⟩
      simp only [retryAux, if_pos hcond]
      rw [ih (i + 1) tr (Nat.one_le_iff_ne_zero.mpr hn)]
      rw [show i + 1 + n = i + (n + 1) by omega]

/-- C7: when an attempt resolves successfully with status ≥ 400, the loop
retries it — without recording a failure — exactly when attempts remain and
the status is in `retryOnStatus` or `retryOnErrorResponseStatus` is set,
and otherwise returns that response unchanged as a non-throwing success:
with every attempt yielding such a response, a retryable status consumes
the whole budget and still returns the response with an empty failure
trace, while a non-retryable status returns it on the first attempt. -/
theorem status_retry_loop (o : Options) (resp : Resp) (r : ℚ)
    (h400 : 400 ≤ resp.status) (hb : 1 ≤ retryBudget r) :
    ((resp.status ∈ o.retryOnStatus ∨ o.retryOnErrorResponseStatus = true) →
       resolveRetryLoop o r (fun _ => .success resp)
         = (.response resp, retryBudget r, []))
    ∧ (¬(resp.status ∈ o.retryOnStatus ∨ o.retryOnErrorResponseStatus = true) →
       resolveRetryLoop o r (fun _ => .success resp)
         = (.response resp, 1, [])) := by
  constructor
  · intro hretry
    have := retryAux_status_retryable o resp h400 hretry (retryBudget r) 0 [] hb
    simpa [resolveRetryLoop] using this
  · intro hnoretry
    unfold resolveRetryLoop
    obtain ⟨n, hn⟩ : ∃ n, retryBudget r = n + 1 :=
      ⟨retryBudget r - 1, by omega⟩
    rw [hn]
    have hcond : ¬(400 ≤ resp.status ∧ 0 < n ∧
        (resp.status ∈ o.retryOnStatus ∨ o.retryOnErrorResponseStatus = true)) := by
      intro hc
      exact hnoretry hc.2.2
    simp only [retryAux, if_neg hcond]

/-- Witness for C7: a 503 response under `retryOnStatus = [503]` with
budget 2, and the same response with an empty `retryOnStatus`. -/
theorem status_retry_loop_witness :
    resolveRetryLoop { retryOnStatus := [503] } 2
        (fun _ => .success { status := 503 })
      = (.response { status := 503 }, retryBudget 2, [])
    ∧ resolveRetryLoop {} 2 (fun _ => .success { status := 503 })
      = (.response { status := 503 }, 1, []) := by
  have hb : retryBudget 2 = 2 := by
    unfold retryBudget
    rw [show ((2 : ℚ)) = ((2 : ℤ) : ℚ) by norm_num, Int.floor_intCast]
    rfl
  constructor
  · exact (status_retry_loop { retryOnStatus := [503] } { status := 503 } 2
      (by decide) (by rw [hb]; omega)).1 (Or.inl (by simp))
  · exact (status_retry_loop {} { status := 503 } 2
      (by decide) (by rw [hb]; omega)).2 (by simp)

/-! ## Claim C4 -/

/-- The claim-side retryability condition, spelled out per failure kind. -/
def claimRetryable (o : Options) (e : ErrV) : Prop :=
  e.code = codeClientError
  ∨ (e.code = codeClientTimeout ∧ o.retryOnClientTimeout = true)
  ∨ (e.code = codeDownstreamError ∧ o.retryOnDownstreamError = true)
  ∨ (e.code = codeInvalidBodyFormat ∧ o.retryOnInvalidResponseBodyFormat = true)
  ∨ (e.code = codeInvalidStatus ∧
      (o.retryOnErrorResponseStatus = true ∨
       ∃ s, e.rstatus = some s ∧ s ∈ o.retryOnStatus))

/-- C4: the per-failure classification of the retry loop records a failure
as retryable exactly under the claim's per-kind conditions — `ClientError`
always, `ClientTimeout`/`DownstreamError`/`InvalidResponseBodyFormat` under
their respective flags, `InvalidResponseStatus` under
`retryOnErrorResponseStatus` or membership of the failing status in
`retryOnStatus` — every other classification rethrows the failure itself;
inside the loop with attempts remaining, a recorded failure continues the
loop with the failure appended to the trace and a rethrown one settles the
run as thrown immediately. -/
theorem retry_classification (o : Options) (e : ErrV) :
    (resolveRetryLoopError o e = .record ↔ claimRetryable o e)
    ∧ (resolveRetryLoopError o e = .record ∨
       resolveRetryLoopError o e = .rethrow e)
    ∧ (∀ (att : Nat → Attempt) (k i : Nat) (tr : List ErrV),
        att i = .failure e none →
        ((resolveRetryLoopError o e = .record →
           retryAux o att (k + 2) i tr = retryAux o att (k + 1) (i + 1) (tr ++ [e]))
         ∧ (resolveRetryLoopError o e = .rethrow e →
           retryAux o att (k + 2) i tr = (.thrown e, i + 1, tr)))) := by
  have d1 : codeClientTimeout ≠ codeDownstreamError := by decide
  have d2 : codeClientTimeout ≠ codeInvalidBodyFormat := by decide
  have d3 : codeClientTimeout ≠ codeInvalidStatus := by decide
  have d4 : codeDownstreamError ≠ codeInvalidBodyFormat := by decide
  have d5 : codeDownstreamError ≠ codeInvalidStatus := by decide
  have d6 : codeInvalidBodyFormat ≠ codeInvalidStatus := by decide
  refine ⟨?_, ?_, ?_⟩
  · unfold resolveRetryLoopError claimRetryable retryOnStatusHit
    by_cases h1 : e.code = codeClientError
    · simp [h1]
    · rw [if_neg h1]
      by_cases h2 : e.code = codeClientTimeout
      · cases hf : o.retryOnClientTimeout <;> simp_all
      · rw [if_neg h2]
        by_cases h3 : e.code = codeDownstreamError
        · cases hf : o.retryOnDownstreamError <;> simp_all
        · rw [if_neg h3]
          by_cases h4 : e.code = codeInvalidBodyFormat
          · cases hf : o.retryOnInvalidResponseBodyFormat <;> simp_all
          · rw [if_neg h4]
            by_cases h5 : e.code = codeInvalidStatus
            · cases hf : o.retryOnErrorResponseStatus
              · cases hs : e.rstatus with
                | none => simp_all
                | some s =>
                  by_cases hmem : s ∈ o.retryOnStatus <;> simp_all
              · simp_all
            · simp_all
  · unfold resolveRetryLoopError
    split_ifs <;> simp
  · intro att k i tr hatt
    constructor
    · intro hrec
      simp only [retryAux, hatt]
      rw [if_neg (by omega : ¬(k + 1 = 0)), hrec]
    · intro hre
      simp only [retryAux, hatt]
      rw [if_neg (by omega : ¬(k + 1 = 0)), hre]

/-- Witness for C4: a `ClientTimeout` failure under `retryOnClientTimeout`
is recorded; without the flag the loop rethrows it immediately even with
attempts remaining. -/
theorem retry_classification_witness :
    resolveRetryLoopError { retryOnClientTimeout := true }
        { code := codeClientTimeout } = .record
    ∧ retryAux {} (fun _ => .failure { code := codeClientTimeout } none) 2 0 []
        = (.thrown { code := codeClientTimeout }, 1, []) := by
  constructor
  · exact (retry_classification { retryOnClientTimeout := true }
      { code := codeClientTimeout }).1.mpr (Or.inr (Or.inl ⟨rfl, rfl⟩))
  · exact ((retry_classification {} { code := codeClientTimeout }).2.2
      (fun _ => .failure { code := codeClientTimeout } none) 0 0 [] rfl).2
      (by simp [resolveRetryLoopError, codeClientTimeout, codeClientError])

/-! ## Claim C2 -/

/-- C2: with a heterogeneous failure history — attempt 1 a `ClientError`,
attempt 2 a `ClientTimeout` under `retryOnClientTimeout` — exhausting a
two-attempt budget throws the raw final `ClientTimeout` failure, not an
aggregate: the final failed attempt is rethrown by the
`if(retry === 0) throw error` shortcut without ever being recorded, so the
exhaustion epilogue that would compare the recorded codes and synthesize
`E_HTTP_REQUEST_RETRY_ERROR` is unreachable — no run of the loop, for any
options, attempt outcomes, budget ≥ 1, start index or starting trace, ever
settles as an aggregate failure. -/
theorem retry_exhaustion_never_aggregate :
    (retryAuxS2 { retryOnClientTimeout := true }
        (fun i => if i = 0 then .failure { code := codeClientError } none
                  else .failure { code := codeClientTimeout } none) 2 0 []
      = (.thrown { code := codeClientTimeout }, 2, [{ code := codeClientError }]))
    ∧ (∀ (o : Options) (att : Nat → Attempt) (b i : Nat) (tr trace : List ErrV),
        1 ≤ b → (retryAuxS2 o att b i tr).1 ≠ .aggregate trace) := by
  constructor
  · rfl
  · have main : ∀ (b : Nat) (o : Options) (att : Nat → Attempt) (i : Nat)
        (tr trace : List ErrV),
        (retryAuxS2 o att (b + 1) i tr).1 ≠ .aggregate trace := by
      intro b
      induction b with
      | zero =>
        intro o att i tr trace
        simp only [retryAuxS2]
        cases att i with
        | success resp =>
          dsimp only
          rw [if_neg (by simp : ¬(400 ≤ resp.status ∧ 0 < 0 ∧
            (resp.status ∈ o.retryOnStatus ∨ o.retryOnErrorResponseStatus = true)))]
          simp
        | failure e rc =>
          dsimp only
          simp
      | succ n ih =>
        intro o att i tr trace
        simp only [retryAuxS2]
        cases att i with
        | success resp =>
          dsimp only
          split
          · exact ih o att (i + 1) tr trace
          · simp
        | failure e rc =>
          dsimp only
          rw [if_neg (by omega : ¬(n + 1 = 0))]
          cases resolveRetryLoopErrorS2 o e rc with
          | record => exact ih o att (i + 1) (tr ++ [e]) trace
          | rethrow e2 => simp
    intro o att b i tr trace hb
    obtain ⟨n, rfl⟩ : ∃ n, b = n + 1 := ⟨b - 1, by omega⟩
    exact main n o att i tr trace

/-- Witness for C2's universal part at a concrete one-attempt run. -/
theorem retry_exhaustion_never_aggregate_witness :
    (retryAuxS2 {} (fun _ => .success { status := 200 }) 1 0 []).1 ≠ .aggregate [] :=
  retry_exhaustion_never_aggregate.2 {} _ 1 0 [] [] (by omega)

/-! ## Header-normalization helper lemmas -/

theorem char_toNat_ofNat_valid (n : Nat) (h : n.isValidChar) :
    (Char.ofNat n).toNat = n := by
  unfold Char.ofNat
  rw [dif_pos h]
  rfl

theorem lowerChar_toNat_of_upper (c : Char)
    (h : 65 ≤ c.toNat ∧ c.toNat ≤ 90) :
    (lowerChar c).toNat = c.toNat + 32 := by
  unfold lowerChar
  rw [if_pos h]
  exact char_toNat_ofNat_valid _ (Or.inl (by omega))

theorem lowerChar_idem (c : Char) : lowerChar (lowerChar c) = lowerChar c := by
  by_cases h : 65 ≤ c.toNat ∧ c.toNat ≤ 90
  · have h1 : (lowerChar c).toNat = c.toNat + 32 := lowerChar_toNat_of_upper c h
    have h2 : ¬(65 ≤ (lowerChar c).toNat ∧ (lowerChar c).toNat ≤ 90) := by
      rw [h1]; omega
    unfold lowerChar
    rw [if_neg (by rwa [lowerChar] at h2)]
  · unfold lowerChar
    rw [if_neg h, if_neg h]

theorem lowerStr_idem (s : String) : lowerStr (lowerStr s) = lowerStr s := by
  unfold lowerStr
  rw [List.map_map]
  exact congrArg String.mk (List.map_congr_left (fun c _ => lowerChar_idem c))

/-- Every entry of `jsSet m k v` is an entry of `m` or the assigned pair. -/
theorem mem_jsSet {β : Type} (m : List (String × β)) (k : String) (v : β) :
    ∀ p ∈ jsSet m k v, p ∈ m ∨ p = (k, v) := by
  induction m with
  | nil => intro p hp; simp [jsSet] at hp; exact Or.inr hp
  | cons q m ih =>
    intro p hp
    unfold jsSet at hp
    by_cases hq : q.1 = k
    · rw [if_pos hq] at hp
      rcases List.mem_cons.mp hp with h | h
      · exact Or.inr h
      · exact Or.inl (List.mem_cons_of_mem q h)
    · rw [if_neg hq] at hp
      rcases List.mem_cons.mp hp with h | h
      · exact Or.inl (h ▸ List.mem_cons_self q m)
      · rcases ih p h with h2 | h2
        · exact Or.inl (List.mem_cons_of_mem q h2)
        · exact Or.inr h2

/-- Every key of `jsSet m k v` is a key of `m` or the assigned key. -/
theorem keys_jsSet {β : Type} (m : List (String × β)) (k : String) (v : β) :
    ∀ x ∈ (jsSet m k v).map Prod.fst, x ∈ m.map Prod.fst ∨ x = k := by
  intro x hx
  rcases List.mem_map.mp hx with ⟨p, hp, hpx⟩
  rcases mem_jsSet m k v p hp with h | h
  · exact Or.inl (hpx ▸ List.mem_map_of_mem Prod.fst h)
  · exact Or.inr (by rw [← hpx, h])

/-- Assignment preserves distinctness of the keys. -/
theorem nodup_keys_jsSet {β : Type} (m : List (String × β)) (k : String) (v : β)
    (h : (m.map Prod.fst).Nodup) : ((jsSet m k v).map Prod.fst).Nodup := by
  induction m with
  | nil => simp [jsSet]
  | cons q m ih =>
    rw [List.map_cons, List.nodup_cons] at h
    unfold jsSet
    by_cases hq : q.1 = k
    · rw [if_pos hq]
      rw [List.map_cons, List.nodup_cons]
      exact ⟨by rw [← hq]; exact h.1, h.2⟩
    · rw [if_neg hq]
      rw [List.map_cons, List.nodup_cons]
      refine ⟨?_, ih h.2⟩
      intro hmem
      rcases keys_jsSet m k v q.1 hmem with h2 | h2
      · exact h.1 h2
      · exact hq h2

/-- Assigning a fresh key appends the pair. -/
theorem jsSet_of_fresh {β : Type} (m : List (String × β)) (k : String) (v : β)
    (h : k ∉ m.map Prod.fst) : jsSet m k v = m ++ [(k, v)] := by
  induction m with
  | nil => rfl
  | cons q m ih =>
    rw [List.map_cons] at h
    have hq : q.1 ≠ k := fun he => h (List.mem_cons.mpr (Or.inl he.symm))
    unfold jsSet
    rw [if_neg hq, ih (fun hm => h (List.mem_cons.mpr (Or.inr hm)))]
    rfl

/-- Reading back through an assignment. -/
theorem jsGet_jsSet {β : Type} (m : List (String × β)) (k : String) (v : β)
    (k' : String) :
    jsGet (jsSet m k v) k' = if k' = k then some v else jsGet m k' := by
  induction m with
  | nil =>
    unfold jsSet jsGet
    by_cases h : k = k'
    · rw [if_pos h, if_pos h.symm]
    · rw [if_neg h, if_neg (fun he => h he.symm)]
      rfl
  | cons q m ih =>
    unfold jsSet
    by_cases hq : q.1 = k
    · rw [if_pos hq]
      simp only [jsGet]
      by_cases hk : k = k'
      · rw [if_pos hk, if_pos hk.symm]
      · rw [if_neg hk, if_neg (fun he => hk he.symm),
          if_neg (show ¬q.1 = k' from by rw [hq]; exact hk)]
    · rw [if_neg hq]
      simp only [jsGet]
      by_cases hqk : q.1 = k'
      · rw [if_pos hqk, if_pos hqk,
          if_neg (fun he : k' = k => hq (by rw [hqk, he]))]
      · rw [if_neg hqk, if_neg hqk, ih]

/-- The normalization invariant: distinct keys, every key fixed by
lowercasing. -/
def HKeysGood (m : List (String × String)) : Prop :=
  (m.map Prod.fst).Nodup ∧ ∀ p ∈ m, lowerStr p.1 = p.1

theorem hKeysGood_step (acc : List (String × String)) (k v : String)
    (h : HKeysGood acc) : HKeysGood (jsSet acc (lowerStr k) v) := by
  refine ⟨nodup_keys_jsSet acc (lowerStr k) v h.1, ?_⟩
  intro p hp
  rcases mem_jsSet acc (lowerStr k) v p hp with h2 | h2
  · exact h.2 p h2
  · rw [h2]
    exact lowerStr_idem k

theorem hKeysGood_foldl (h : List (String × String)) :
    ∀ acc, HKeysGood acc →
      HKeysGood (h.foldl (fun acc p => jsSet acc (lowerStr p.1) p.2) acc) := by
  induction h with
  | nil => intro acc hacc; exact hacc
  | cons p h ih =>
    intro acc hacc
    exact ih _ (hKeysGood_step acc p.1 p.2 hacc)

theorem normalizeHeaders_good (h : List (String × String)) :
    HKeysGood (normalizeHeaders h) :=
  hKeysGood_foldl h [] ⟨List.nodup_nil, by simp⟩

/-- Folding assignments of fresh, already-lowercase keys over `acc` appends
the entries unchanged. -/
theorem foldl_jsSet_fresh (m : List (String × String)) :
    ∀ acc, (∀ x ∈ acc.map Prod.fst, x ∉ m.map Prod.fst) →
      (m.map Prod.fst).Nodup → (∀ p ∈ m, lowerStr p.1 = p.1) →
      m.foldl (fun acc p => jsSet acc (lowerStr p.1) p.2) acc = acc ++ m := by
  induction m with
  | nil => intro acc _ _ _; simp
  | cons p m ih =>
    intro acc hdisj hnd hfix
    have hfixp : lowerStr p.1 = p.1 := hfix p (List.mem_cons_self p m)
    have hfresh : p.1 ∉ acc.map Prod.fst := by
      intro hmem
      exact hdisj p.1 hmem (by simp)
    rw [List.map_cons, List.nodup_cons] at hnd
    have step : jsSet acc (lowerStr p.1) p.2 = acc ++ [p] := by
      rw [hfixp, jsSet_of_fresh acc p.1 p.2 hfresh]
    rw [List.foldl_cons, step, ih (acc ++ [p]) ?_ hnd.2
      (fun q hq => hfix q (List.mem_cons_of_mem p hq))]
    · simp
    · intro x hx
      rw [List.map_append] at hx
      rcases List.mem_append.mp hx with h2 | h2
      · intro hmem
        exact hdisj x h2 (List.mem_cons_of_mem _ hmem)
      · simp at h2
        rw [h2]
        exact hnd.1

/-- A good map is a fixed point of normalization. -/
theorem normalizeHeaders_fixed (m : List (String × String))
    (hm : HKeysGood m) : normalizeHeaders m = m := by
  unfold normalizeHeaders
  rw [foldl_jsSet_fresh m [] (by simp) hm.1 hm.2]
  rfl

/-- The lookup after the fold is the last assigned value for the key. -/
theorem jsGet_foldl (h : List (String × String)) :
    ∀ (acc : List (String × String)) (k : String),
      jsGet (h.foldl (fun acc p => jsSet acc (lowerStr p.1) p.2) acc) k
        = h.foldl (fun r p => if lowerStr p.1 = k then some p.2 else r)
            (jsGet acc k) := by
  induction h with
  | nil => intro acc k; rfl
  | cons p h ih =>
    intro acc k
    rw [List.foldl_cons, List.foldl_cons, ih, jsGet_jsSet]
    by_cases hk : k = lowerStr p.1
    · rw [if_pos hk, if_pos hk.symm]
    · rw [if_neg hk, if_neg (fun he => hk he.symm)]

/-! ## Claim C8 -/

/-- C8: header normalization is idempotent — normalizing an already
normalized mapping is the identity — every key of the result is fixed by
lowercasing, and for input keys that collide after lowercasing the value
of the latest such key wins: the lookup of `k` in the result is the value
of the last input entry whose lowercased key is `k`. -/
theorem normalize_headers_idempotent (h : List (String × String)) :
    normalizeHeaders (normalizeHeaders h) = normalizeHeaders h
    ∧ (∀ p ∈ normalizeHeaders h, lowerStr p.1 = p.1)
    ∧ (∀ k, jsGet (normalizeHeaders h) k
        = h.foldl (fun r p => if lowerStr p.1 = k then some p.2 else r) none) := by
  refine ⟨normalizeHeaders_fixed _ (normalizeHeaders_good h),
    (normalizeHeaders_good h).2, ?_⟩
  intro k
  have := jsGet_foldl h [] k
  simpa [normalizeHeaders, jsGet] using this

/-- Witness for C8 at a mapping with two keys colliding after lowercasing. -/
theorem normalize_headers_idempotent_witness :
    normalizeHeaders (normalizeHeaders [("Content-Type", "a"), ("content-type", "b")])
      = normalizeHeaders [("Content-Type", "a"), ("content-type", "b")]
    ∧ lowerStr "content-type" = "content-type"
    ∧ jsGet (normalizeHeaders [("Content-Type", "a"), ("content-type", "b")])
        "content-type" = some "b" := by
  refine ⟨(normalize_headers_idempotent _).1, ?_, ?_⟩
  · exact (normalize_headers_idempotent [("Content-Type", "a"), ("content-type", "b")]).2.1
      ("content-type", "b") (by decide)
  · rw [(normalize_headers_idempotent _).2.2 "content-type"]
    decide

/-! ## Event-stream helper lemmas -/

/-- A numeral parser standing in for the JSON primitive on numeral field
values: a non-empty all-digit string parses to its numeric value. -/
def natParse (s : String) : Option Nat :=
  if s.data ≠ [] ∧ s.data.all Char.isDigit then
    some (s.data.foldl (fun acc c => acc * 10 + (c.toNat - 48)) 0)
  else none

theorem jsIndexOfAux_of_mem (c : Char) :
    ∀ (l : List Char) (i : Nat), c ∈ l →
      jsIndexOfAux c l i
        = (i : Int) + ((l.takeWhile (fun d => d != c)).length : Int) := by
  intro l
  induction l with
  | nil => intro i h; simp at h
  | cons d ds ih =>
    intro i h
    by_cases hd : d = c
    · subst hd
      rw [@List.takeWhile_cons_of_neg _ (fun x => x != d) d ds (by simp)]
      simp [jsIndexOfAux]
    · have hmem : c ∈ ds := by
        rcases List.mem_cons.mp h with h2 | h2
        · exact absurd h2.symm hd
        · exact h2
      simp only [jsIndexOfAux]
      rw [if_neg hd, ih (i + 1) hmem,
        List.takeWhile_cons_of_pos (by simp [hd])]
      rw [List.length_cons]
      push_cast
      ring

theorem take_takeWhile_len {γ : Type} (p : γ → Bool) :
    ∀ l : List γ, l.take ((l.takeWhile p).length) = l.takeWhile p := by
  intro l
  induction l with
  | nil => rfl
  | cons d ds ih =>
    by_cases hp : p d = true
    · rw [List.takeWhile_cons_of_pos hp, List.length_cons, List.take_succ_cons, ih]
    · rw [List.takeWhile_cons_of_neg hp]
      rfl

theorem drop_takeWhile_len (c : Char) :
    ∀ l : List Char, c ∈ l →
      l.drop ((l.takeWhile (fun d => d != c)).length + 1)
        = (l.dropWhile (fun d => d != c)).drop 1 := by
  intro l
  induction l with
  | nil => intro h; simp at h
  | cons d ds ih =>
    intro h
    by_cases hd : d = c
    · subst hd
      rw [@List.takeWhile_cons_of_neg _ (fun x => x != d) d ds (by simp),
        @List.dropWhile_cons_of_neg _ (fun x => x != d) d ds (by simp)]
      simp
    · have hmem : c ∈ ds := by
        rcases List.mem_cons.mp h with h2 | h2
        · exact absurd h2.symm hd
        · exact h2
      rw [List.takeWhile_cons_of_pos (by simp [hd]),
        List.dropWhile_cons_of_pos (by simp [hd]),
        List.length_cons]
      exact ih hmem

theorem takeWhile_len_lt (c : Char) :
    ∀ l : List Char, c ∈ l →
      (l.takeWhile (fun d => d != c)).length < l.length := by
  intro l
  induction l with
  | nil => intro h; simp at h
  | cons d ds ih =>
    intro h
    by_cases hd : d = c
    · subst hd
      rw [List.takeWhile_cons_of_neg (by simp)]
      simp
    · have hmem : c ∈ ds := by
        rcases List.mem_cons.mp h with h2 | h2
        · exact absurd h2.symm hd
        · exact h2
      rw [List.takeWhile_cons_of_pos (by simp [hd]), List.length_cons,
        List.length_cons]
      exact Nat.succ_lt_succ (ih hmem)

theorem jsSliceZeroTo_at_colon (field : String) (h : ':' ∈ field.data) :
    jsSliceZeroTo field (jsIndexOf field ':')
      = String.mk (field.data.takeWhile (fun d => d != ':')) := by
  have hidx : jsIndexOf field ':'
      = ((field.data.takeWhile (fun d => d != ':')).length : Int) := by
    unfold jsIndexOf
    rw [jsIndexOfAux_of_mem ':' field.data 0 h]
    simp
  have hlt := takeWhile_len_lt ':' field.data h
  unfold jsSliceZeroTo jsSliceIndex
  rw [hidx, if_neg (by omega), Int.toNat_natCast,
    Nat.min_eq_left (le_of_lt hlt), take_takeWhile_len]

theorem jsSliceFrom_after_colon (field : String) (h : ':' ∈ field.data) :
    jsSliceFrom field (jsIndexOf field ':' + 1)
      = String.mk ((field.data.dropWhile (fun d => d != ':')).drop 1) := by
  have hidx : jsIndexOf field ':'
      = ((field.data.takeWhile (fun d => d != ':')).length : Int) := by
    unfold jsIndexOf
    rw [jsIndexOfAux_of_mem ':' field.data 0 h]
    simp
  have hlt := takeWhile_len_lt ':' field.data h
  unfold jsSliceFrom jsSliceIndex
  rw [hidx, if_neg (by omega)]
  rw [show (((field.data.takeWhile (fun d => d != ':')).length : Int) + 1).toNat
      = (field.data.takeWhile (fun d => d != ':')).length + 1 by omega]
  rw [Nat.min_eq_left (by omega), drop_takeWhile_len ':' field.data h]

/-- On a field that carries a colon, the source's `indexOf`/`slice` field
decoding coincides with the claim-shaped first-colon split. -/
theorem decodeEventField_eq {α : Type} (P : String → Option α) (field : String)
    (h : ':' ∈ field.data) :
    decodeEventField P field = specDecodeField P field := by
  unfold decodeEventField specDecodeField
  dsimp only
  rw [jsSliceZeroTo_at_colon field h, jsSliceFrom_after_colon field h]

/-! ## Claim C9 -/

/-- C9: the event-stream decoder splits the trimmed body on blank-line
boundaries into events and each event on newline boundaries into
field:value entries whose values are JSON-parsed when possible and kept as
the raw trimmed text otherwise — on every body whose fields all carry a
colon it coincides with the claim-shaped decoder — and the two-event body
`"a: 1\n\nb: 2"` with numeral values decodes to the ordered two-element
sequence with numerically parsed values. -/
theorem event_stream_decode :
    (∀ (α : Type) (P : String → Option α) (body : String),
       fieldsHaveColon body →
       contentTypeTextEventStream P body = specEventStreamDecode P body)
    ∧ contentTypeTextEventStream natParse "a: 1\n\nb: 2"
        = [[("a", Sum.inl 1)], [("b", Sum.inl 2)]] := by
  constructor
  · intro α P body hcolon
    unfold contentTypeTextEventStream specEventStreamDecode
    apply List.map_congr_left
    intro ev hev
    exact congrArg jsFromEntries
      (List.map_congr_left (fun f hf => decodeEventField_eq P f (hcolon ev hev f hf)))
  · decide

/-- Witness for C9's universal part at a concrete single-field body. -/
theorem event_stream_decode_witness :
    contentTypeTextEventStream natParse "x: 7"
      = specEventStreamDecode natParse "x: 7" :=
  event_stream_decode.1 Nat natParse "x: 7" (by decide)

end HttpRequest
